import Mathlib

/-!
# 3rd Eye SDK — verification of the core pipeline

A shallow embedding of the SDK's core pipeline, translated from the
TypeScript source:

* `schema.ts`    — descriptor synthesis (local generation, cache, remote fetch);
* `registrar.ts` — tool registry and the wrapped execute callback;
* `watcher.ts`   — the debounced reconciliation trigger;
* `scanner.ts`   — the three DOM scan passes (forms, buttons, annotated).

JavaScript idioms are made explicit: optional values become `Option`,
string truthiness (`x || y`) becomes `jsOr`, machine-time stamps become
`Nat` clock parameters, the DOM becomes an explicit tree, and the remote
service / host runtime become environment parameters describing their
observable outcome.
-/

namespace ThirdEye

/-- JS `a || b` on an optional string: `a` wins unless it is absent or empty. -/
def jsOr (a : Option String) (b : String) : String :=
  match a with
  | some s => if s = "" then b else s
  | none => b

/-- JS truthiness of an optional string: present and non-empty. -/
def jsTruthy (a : Option String) : Bool :=
  match a with
  | some s => s ≠ ""
  | none => false

/-- Whether the pattern occurs as a contiguous substring (JS `String.includes`). -/
def listContainsSub (s pat : List Char) : Bool :=
  match s with
  | [] => pat.isEmpty
  | _ :: rest => pat.isPrefixOf s || listContainsSub rest pat

/-- JS `s.includes(pat)`. -/
def strIncludes (s pat : String) : Bool :=
  listContainsSub s.data pat.data

/-- ASCII lowercasing, character by character (JS `toLowerCase`). -/
def strToLower (s : String) : String :=
  ⟨s.data.map Char.toLower⟩

/-- ASCII uppercasing, character by character (JS `toUpperCase`). -/
def strToUpper (s : String) : String :=
  ⟨s.data.map Char.toUpper⟩

/-- ASCII whitespace recognised by the `trim` model. -/
def isWsChar (c : Char) : Bool :=
  c = ' ' || c = '\t' || c = '\n' || c = '\r'

/-- JS `s.trim()`: drop whitespace from both ends. -/
def strTrim (s : String) : String :=
  ⟨((s.data.dropWhile isWsChar).reverse.dropWhile isWsChar).reverse⟩

-- ── Data model (`types.ts`) ─────────────────────────────────────────────────

/-- Discriminator for scanned elements (`ScannedElementType`). -/
inductive ScannedElementType where
  | form
  | button
deriving DecidableEq, Repr

/-- One input/select/textarea inside a scanned form (`ScannedInput`). -/
structure ScannedInput where
  name : String
  inputType : String
  required : Bool
  placeholder : Option String := none
  label : Option String := none
  overrideParamDescription : Option String := none
deriving DecidableEq, Repr

/-- The four optional W3C safety hints (`ToolAnnotations`). -/
structure ToolAnnotations where
  readOnlyHint : Option Bool := none
  destructiveHint : Option Bool := none
  idempotentHint : Option Bool := none
  openWorldHint : Option Bool := none
deriving DecidableEq, Repr

/-- Serializable snapshot of one actionable DOM node (`ScannedElement`). -/
structure ScannedElement where
  type : ScannedElementType
  id : Option String := none
  selector : String
  action : Option String := none
  method : Option String := none
  inputs : Option (List ScannedInput) := none
  ariaLabel : Option String := none
  textContent : Option String := none
  overrideName : Option String := none
  overrideDescription : Option String := none
  overrideAnnotations : Option ToolAnnotations := none
deriving DecidableEq, Repr

/-- JSON-schema property descriptor (`SchemaProperty`). -/
structure SchemaProperty where
  type : String
  description : String
deriving DecidableEq, Repr

/-- JSON-schema object for a tool's input (`ToolInputSchema`); the constant
`type: "object"` tag is omitted.  `properties` keeps JS object insertion
order. -/
structure ToolInputSchema where
  properties : List (String × SchemaProperty)
  required : List String
deriving DecidableEq, Repr

/-- A registrable tool descriptor (`ToolSchema`). -/
structure ToolSchema where
  name : String
  description : String
  parameters : ToolInputSchema
  selector : String
  elementType : ScannedElementType
  annotations : Option ToolAnnotations := none
deriving DecidableEq, Repr

-- ── Local generation (`schema.ts`, local fallback helpers) ──────────────────

/-- A character kept verbatim by `toToolName` (`[a-z0-9]` after lowercasing). -/
def isTokenChar (c : Char) : Bool :=
  (('a' ≤ c ∧ c ≤ 'z') ∨ ('0' ≤ c ∧ c ≤ '9') : Bool)

/-- Collapse each maximal run of non-token characters to one underscore
(JS `replace(/[^a-z0-9]+/g, "_")`). -/
def collapseNonToken : List Char → List Char
  | [] => []
  | c :: rest =>
    if isTokenChar c then
      c :: collapseNonToken rest
    else
      match collapseNonToken rest with
      | '_' :: tail => '_' :: tail
      | tail => '_' :: tail

/-- Drop one leading underscore (half of JS `replace(/^_|_$/g, "")`). -/
def dropLeadUnderscore : List Char → List Char
  | '_' :: rest => rest
  | l => l

/-- Embedded `toToolName`: lowercase, collapse non-alphanumeric runs to `_`, trim a
leading and a trailing underscore. -/
def toToolName (raw : String) : String :=
  let collapsed := collapseNonToken (strToLower raw).data
  let noTrail := (dropLeadUnderscore collapsed.reverse).reverse
  ⟨dropLeadUnderscore noTrail⟩

/-- The property built for one scanned input inside `inputsToSchema`. -/
def mkProp (input : ScannedInput) : SchemaProperty :=
  { type := if input.inputType = "number" then "number" else "string"
    description :=
      jsOr input.overrideParamDescription
        (jsOr input.label
          (jsOr input.placeholder
            ("The " ++ input.name ++ " field (" ++ input.inputType ++ ")"))) }

/-- JS object assignment `properties[k] = v`: replace in place, else append. -/
def setProp (ps : List (String × SchemaProperty)) (k : String) (v : SchemaProperty) :
    List (String × SchemaProperty) :=
  match ps with
  | [] => [(k, v)]
  | (k0, v0) :: rest => if k0 = k then (k0, v) :: rest else (k0, v0) :: setProp rest k v

/-- The loop body of `inputsToSchema`, in element order. -/
def buildInputProps :
    List ScannedInput → List (String × SchemaProperty) → List String →
    List (String × SchemaProperty) × List String
  | [], props, req => (props, req)
  | input :: rest, props, req =>
    buildInputProps rest (setProp props input.name (mkProp input))
      (if input.required then req ++ [input.name] else req)

/-- Embedded `inputsToSchema`: JSON schema from a scanned form's inputs. -/
def inputsToSchema (element : ScannedElement) : ToolInputSchema :=
  let r := buildInputProps (element.inputs.getD []) [] []
  { properties := r.1, required := r.2 }

/-- Embedded `inferFormAnnotations`: GET → read-only, DELETE → destructive,
anything else → open-world. -/
def inferFormAnnotations (method : Option String) : ToolAnnotations :=
  let m := strToUpper (method.getD "GET")
  if m = "GET" then { readOnlyHint := some true, destructiveHint := some false }
  else if m = "DELETE" then { destructiveHint := some true, readOnlyHint := some false }
  else { readOnlyHint := some false, openWorldHint := some true }

/-- Embedded `schemaFromForm`. -/
def schemaFromForm (element : ScannedElement) : ToolSchema :=
  let name := element.overrideName.getD (toToolName (jsOr element.id "unknown_form"))
  let inputCount := (element.inputs.getD []).length
  let description := element.overrideDescription.getD
    ("Submit the \"" ++ jsOr element.id "unknown" ++ "\" form (" ++
      element.method.getD "GET" ++ ", " ++ toString inputCount ++ " field" ++
      (if inputCount ≠ 1 then "s" else "") ++ ")")
  let annotations := element.overrideAnnotations.getD (inferFormAnnotations element.method)
  { name := name
    description := description
    parameters := inputsToSchema element
    selector := element.selector
    elementType := .form
    annotations := some annotations }

/-- Destructive vocabulary checked by `inferButtonAnnotations`. -/
def destructiveWords : List String :=
  ["delete", "remove", "cancel", "destroy", "unsubscribe"]

/-- Read-only vocabulary checked by `inferButtonAnnotations`. -/
def readOnlyWords : List String :=
  ["search", "view", "show", "filter", "browse", "find"]

/-- The lowercased accessible text of a button
(`(element.ariaLabel || element.textContent || "").toLowerCase()`). -/
def buttonText (element : ScannedElement) : String :=
  strToLower (jsOr element.ariaLabel (jsOr element.textContent ""))

/-- Embedded `inferButtonAnnotations`: destructive vocabulary beats read-only
vocabulary beats the idempotent default. -/
def inferButtonAnnotations (element : ScannedElement) : ToolAnnotations :=
  let text := buttonText element
  if destructiveWords.any (fun w => strIncludes text w) then
    { destructiveHint := some true, readOnlyHint := some false }
  else if readOnlyWords.any (fun w => strIncludes text w) then
    { readOnlyHint := some true, destructiveHint := some false }
  else
    { idempotentHint := some true }

/-- Embedded `schemaFromButton`. -/
def schemaFromButton (element : ScannedElement) : ToolSchema :=
  let label := jsOr element.ariaLabel (jsOr element.textContent (jsOr element.id "unknown_button"))
  let name := element.overrideName.getD (toToolName label)
  let description := element.overrideDescription.getD ("Click the \"" ++ label ++ "\" button")
  let annotations := element.overrideAnnotations.getD (inferButtonAnnotations element)
  { name := name
    description := description
    parameters := { properties := [], required := [] }
    selector := element.selector
    elementType := .button
    annotations := some annotations }

/-- Embedded `generateLocalSchemas`: one descriptor per form or button element. -/
def generateLocalSchemas : List ScannedElement → List ToolSchema
  | [] => []
  | e :: rest =>
    (match e.type with
     | .form => [schemaFromForm e]
     | .button => [schemaFromButton e]) ++ generateLocalSchemas rest

-- ── Cache (`schema.ts`, localStorage-backed) ────────────────────────────────

/-- One stored cache record: `{ schemas, timestamp }`. -/
structure CacheEntry where
  schemas : List ToolSchema
  timestamp : Nat
deriving DecidableEq, Repr

/-- The localStorage model: an insertion-ordered key/value store. -/
abbrev Storage := List (String × CacheEntry)

/-- Embedded `localStorage.getItem`. -/
def getItem (st : Storage) (k : String) : Option CacheEntry :=
  (st.find? (fun p => p.1 = k)).map (fun p => p.2)

/-- Embedded `localStorage.setItem`: replace the entry in place, else append. -/
def setItem (st : Storage) (k : String) (v : CacheEntry) : Storage :=
  match st with
  | [] => [(k, v)]
  | (k0, v0) :: rest => if k0 = k then (k0, v) :: rest else (k0, v0) :: setItem rest k v

/-- Embedded `localStorage.removeItem`. -/
def removeItem (st : Storage) (k : String) : Storage :=
  st.filter (fun p => p.1 ≠ k)

/-- Embedded `CACHE_KEY_PREFIX + window.location.pathname`. -/
def cacheKey (path : String) : String :=
  "__3rdeye_schemas_" ++ path

/-- Embedded `CACHE_TTL_MS` (5 minutes). -/
def cacheTtlMs : Nat := 5 * 60 * 1000

/-- Embedded `getCachedSchemas`: the cached descriptor list for the current path if a
non-expired entry exists; an expired entry is removed.  Returns the result
and the storage after the read. -/
def getCachedSchemas (st : Storage) (path : String) (now : Nat) :
    Option (List ToolSchema) × Storage :=
  let key := cacheKey path
  match getItem st key with
  | none => (none, st)
  | some cached =>
    if now - cached.timestamp > cacheTtlMs then (none, removeItem st key)
    else (some cached.schemas, st)

/-- Embedded `cacheSchemas`: store `{ schemas, timestamp: now }` under the path key. -/
def cacheSchemas (st : Storage) (path : String) (schemas : List ToolSchema) (now : Nat) :
    Storage :=
  setItem st (cacheKey path) { schemas := schemas, timestamp := now }

-- ── Remote synthesis (`fetchSchemas`) ───────────────────────────────────────

/-- Observable outcome of the single remote `fetch` round trip:
a 2xx response carrying a schema array, a non-2xx response, or a thrown
error (timeout abort or network failure). -/
inductive RemoteResult where
  | success (schemas : List ToolSchema)
  | httpFailure (status : Nat)
  | thrown (msg : String)
deriving DecidableEq, Repr

/-- A remote outcome the source treats as "unavailable": non-2xx, thrown,
or a 2xx response whose schema array is empty. -/
def remoteFails : RemoteResult → Bool
  | .success schemas => schemas.isEmpty
  | .httpFailure _ => true
  | .thrown _ => true

/-- The body of the `try` block around the remote call: a thrown fetch error
propagates as `Except.error`; a non-2xx response yields no schema list. -/
def remoteCall : RemoteResult → Except String (Option (List ToolSchema))
  | .success schemas => .ok (some schemas)
  | .httpFailure _ => .ok none
  | .thrown msg => .error msg

/-- Embedded `elements.every((e) => e.overrideName && e.overrideDescription)`. -/
def allOverridden (elements : List ScannedElement) : Bool :=
  elements.all (fun e => jsTruthy e.overrideName && jsTruthy e.overrideDescription)

/-- What `fetchSchemas` hands back: the descriptors, how many remote
requests were issued (0 or 1), and the storage afterwards. -/
structure FetchResult where
  schemas : List ToolSchema
  requests : Nat
  storage : Storage
deriving DecidableEq, Repr

/-- Embedded `fetchSchemas`: cache check, override short-circuit, one remote attempt
under a try/catch, local fallback.  The outer `Except` records whether the
operation as a whole throws to its caller; every branch catches, so it
never does. -/
def fetchSchemas (elements : List ScannedElement) (endpoint : Option String)
    (skipCache : Bool) (st : Storage) (path : String) (now : Nat)
    (remote : RemoteResult) : Except String FetchResult :=
  let step1 : Option (List ToolSchema) × Storage :=
    if !skipCache then getCachedSchemas st path now else (none, st)
  match step1 with
  | (some cached, st1) => .ok { schemas := cached, requests := 0, storage := st1 }
  | (none, st1) =>
    if allOverridden elements then
      .ok { schemas := generateLocalSchemas elements, requests := 0, storage := st1 }
    else
      match endpoint with
      | some _ =>
        match remoteCall remote with
        | .ok (some schemas) =>
          if schemas.length > 0 then
            .ok { schemas := schemas, requests := 1,
                  storage := cacheSchemas st1 path schemas now }
          else
            .ok { schemas := generateLocalSchemas elements, requests := 1, storage := st1 }
        | .ok none =>
          .ok { schemas := generateLocalSchemas elements, requests := 1, storage := st1 }
        | .error _ =>
          .ok { schemas := generateLocalSchemas elements, requests := 1, storage := st1 }
      | none =>
        .ok { schemas := generateLocalSchemas elements, requests := 0, storage := st1 }

/-- The descriptor list of a fetch outcome, when it did not throw. -/
def schemasOf (r : Except String FetchResult) : Option (List ToolSchema) :=
  r.toOption.map (fun x => x.schemas)

/-- The request count of a fetch outcome, when it did not throw. -/
def requestsOf (r : Except String FetchResult) : Option Nat :=
  r.toOption.map (fun x => x.requests)

-- ── Registrar (`registrar.ts`) ──────────────────────────────────────────────

/-- Telemetry events emitted by the registrar (`trackEvent` calls). -/
inductive TEvent where
  | toolAttempt (toolName : String)
  | userConfirmation (toolName : String) (allowed : Bool)
  | toolSuccess (toolName : String) (duration : Nat)
  | toolError (toolName : String) (msg : String) (duration : Nat)
  | toolRegistered (toolName : String)
deriving DecidableEq, Repr

/-- Whether an event is a `TOOL_SUCCESS` beacon. -/
def TEvent.isToolSuccess : TEvent → Bool
  | .toolSuccess _ _ => true
  | _ => false

/-- Observable behaviour of `client.requestUserInteraction` during
`maybeConfirmDestructive`: the client is missing or lacks the method, it
resolves with the user's boolean answer, or it throws. -/
inductive ConfirmBehavior where
  | noSupport
  | answers (allowed : Bool)
  | throws
deriving DecidableEq, Repr

/-- Truthiness of `schema.annotations?.destructiveHint`. -/
def isDestructive (schema : ToolSchema) : Bool :=
  match schema.annotations with
  | some a => a.destructiveHint = some true
  | none => false

/-- Embedded `maybeConfirmDestructive`: events emitted and whether execution may
proceed.  Non-destructive tools, unsupported clients and confirmation
failures all proceed; only an explicit decline stops execution. -/
def maybeConfirmDestructive (schema : ToolSchema) (cb : ConfirmBehavior) :
    List TEvent × Bool :=
  if !isDestructive schema then ([], true)
  else
    match cb with
    | .noSupport => ([], true)
    | .answers allowed => ([.userConfirmation schema.name allowed], allowed)
    | .throws => ([], true)

/-- Result values the wrapped execute callback can return normally. -/
inductive ExecResult where
  | succeeded (toolName : String) (duration : Nat)
  | denied (toolName : String)
deriving DecidableEq, Repr

/-- The not-found error message thrown in phase C. -/
def notFoundMsg (schema : ToolSchema) : String :=
  "Element not found for selector: " ++ schema.selector

/-- The wrapped execute callback built by `registerTools` (phases A–D):
attempt beacon, destructive confirmation, element resolution and DOM
interaction, then a success or error beacon.  `resolves` says whether
`document.querySelector(schema.selector)` finds the element at invocation
time; `tStart`/`tEnd` are the `Date.now()` readings at entry and at the
success/error beacon.  Returns the emitted events and either a normal
result or the re-raised error. -/
def wrappedExecute (schema : ToolSchema) (cb : ConfirmBehavior) (resolves : Bool)
    (tStart tEnd : Nat) : List TEvent × Except String ExecResult :=
  let attempt := [TEvent.toolAttempt schema.name]
  let confirm := maybeConfirmDestructive schema cb
  if !confirm.2 then
    (attempt ++ confirm.1, .ok (.denied schema.name))
  else if resolves then
    let duration := tEnd - tStart
    (attempt ++ confirm.1 ++ [TEvent.toolSuccess schema.name duration],
      .ok (.succeeded schema.name duration))
  else
    let duration := tEnd - tStart
    (attempt ++ confirm.1 ++ [TEvent.toolError schema.name (notFoundMsg schema) duration],
      .error (notFoundMsg schema))

/-- The registrar's durable state: the module-level `registeredTools`
name → selector map (insertion ordered), the names passed to
`navigator.modelContext.registerTool` (every call, failed or not), and the
telemetry beacons emitted. -/
structure RegistrarState where
  registeredTools : List (String × String)
  hostCalls : List String
  events : List TEvent
deriving DecidableEq, Repr

/-- Embedded `registeredTools.has(name)`. -/
def hasToolName (s : RegistrarState) (name : String) : Bool :=
  s.registeredTools.any (fun p => p.1 = name)

/-- The `for` loop in `registerTools`: skip names already in the registry,
attempt the host registration (which may throw — `hostGlitch` names the
schemas whose `registerTool` call fails), and on success record the
name → selector pair and emit a `TOOL_REGISTERED` beacon. -/
def registerToolsLoop (hostGlitch : String → Bool) :
    List ToolSchema → RegistrarState → RegistrarState
  | [], s => s
  | schema :: rest, s =>
    if hasToolName s schema.name then
      registerToolsLoop hostGlitch rest s
    else if hostGlitch schema.name then
      registerToolsLoop hostGlitch rest
        { s with hostCalls := s.hostCalls ++ [schema.name] }
    else
      registerToolsLoop hostGlitch rest
        { registeredTools := s.registeredTools ++ [(schema.name, schema.selector)]
          hostCalls := s.hostCalls ++ [schema.name]
          events := s.events ++ [TEvent.toolRegistered schema.name] }

/-- Embedded `registerTools`: a no-op when `navigator.modelContext` is absent,
otherwise the registration loop. -/
def registerTools (hostAvailable : Bool) (hostGlitch : String → Bool)
    (schemas : List ToolSchema) (s : RegistrarState) : RegistrarState :=
  if !hostAvailable then s else registerToolsLoop hostGlitch schemas s

-- ── Watcher debounce (`watcher.ts`) ─────────────────────────────────────────

/-- Embedded `DEBOUNCE_MS`. -/
def debounceMs : Nat := 300

/-- Embedded `debouncedRescan` acting on the single pending-timer slot: clear any
pending timer and schedule `handleDOMChange` at `now + DEBOUNCE_MS`. -/
def debouncedRescan (pending : Option Nat) (now : Nat) : Option Nat :=
  match pending with
  | some _ => some (now + debounceMs)
  | none => some (now + debounceMs)

/-- Replay a sorted burst of qualifying mutation/navigation signal times
against the pending-timer slot and count the reconciliations
(`handleDOMChange` firings): a pending timer fires if its deadline passes
before the next signal, and any timer still pending after the last signal
eventually fires. -/
def reconCount (pending : Option Nat) : List Nat → Nat
  | [] =>
    match pending with
    | some _ => 1
    | none => 0
  | t :: rest =>
    match pending with
    | some deadline =>
      if deadline ≤ t then 1 + reconCount (debouncedRescan (some deadline) t) rest
      else reconCount (debouncedRescan (some deadline) t) rest
    | none => reconCount (debouncedRescan none t) rest

/-- All signals after the head arrive before the previous signal's debounce
deadline. -/
def withinWindow : Nat → List Nat → Bool
  | _, [] => true
  | prev, t :: rest => decide (t < prev + debounceMs) && withinWindow t rest

-- ── DOM model ───────────────────────────────────────────────────────────────

/-- The data carried by one document element: tag name, attribute list, and
the text written directly inside it (before any child element text). -/
structure ElemData where
  tag : String
  attrs : List (String × String)
  text : String := ""

/-- A document node: an element with its children. -/
inductive Dom where
  | node (data : ElemData) (children : List Dom)

/-- The element data of a node. -/
def Dom.getData : Dom → ElemData
  | .node d _ => d

/-- The children of a node. -/
def Dom.getChildren : Dom → List Dom
  | .node _ cs => cs

/-- The tag name of a node. -/
def Dom.tag (el : Dom) : String :=
  el.getData.tag

/-- Embedded `el.getAttribute(k)`. -/
def getAttr (el : Dom) (k : String) : Option String :=
  (el.getData.attrs.find? (fun p => p.1 = k)).map (fun p => p.2)

/-- Embedded `el.hasAttribute(k)`. -/
def hasAttr (el : Dom) (k : String) : Bool :=
  el.getData.attrs.any (fun p => p.1 = k)

/-- Embedded `el.id` (the DOM property: the attribute or the empty string). -/
def domId (el : Dom) : String :=
  (getAttr el "id").getD ""

mutual

/-- Embedded `el.textContent`: the concatenated text of the subtree. -/
def textContent : Dom → String
  | .node d cs => d.text ++ textContentList cs

/-- Text of a forest, in order. -/
def textContentList : List Dom → String
  | [] => ""
  | c :: cs => textContent c ++ textContentList cs

end

/-- One ancestor step of a node's position: the parent's data, the parent's
full child list, and the node's index in that list. -/
structure Ctx where
  parentData : ElemData
  siblings : List Dom
  idx : Nat

mutual

/-- All nodes of a subtree in document (pre)order, each with the ancestor
steps locating it (nearest ancestor first). -/
def nodesWithCtx : Dom → List Ctx → List (Dom × List Ctx)
  | .node d cs, ctx => (.node d cs, ctx) :: childrenCtx d cs cs 0 ctx

/-- Walk the remaining children (third argument) of a parent whose full
child list is `allCs`, numbering them from `i`. -/
def childrenCtx (pd : ElemData) (allCs : List Dom) :
    List Dom → Nat → List Ctx → List (Dom × List Ctx)
  | [], _, _ => []
  | c :: rest, i, ctx =>
    nodesWithCtx c ({ parentData := pd, siblings := allCs, idx := i } :: ctx) ++
      childrenCtx pd allCs rest (i + 1) ctx

end

/-- All proper descendants of a node, with contexts
(`el.querySelectorAll` scope). -/
def descendantsWithCtx (el : Dom) (ctx : List Ctx) : List (Dom × List Ctx) :=
  childrenCtx el.getData el.getChildren el.getChildren 0 ctx

/-- The ancestor chain of a node as reconstructed elements, nearest first. -/
def ancestorsOf (ctx : List Ctx) : List Dom :=
  ctx.map (fun s => .node s.parentData s.siblings)

/-- Embedded `el.closest(pred)`: the nearest of the node and its ancestors matching. -/
def closest (el : Dom) (ctx : List Ctx) (pred : Dom → Bool) : Option Dom :=
  (el :: ancestorsOf ctx).find? pred

-- ── Scanner (`scanner.ts`) ──────────────────────────────────────────────────

/-- Embedded `buildSelector`: prefer `#id`; otherwise a structural
`tag:nth-of-type(n)` path from the root, skipping the position for an only
same-tag child. -/
def buildSelector : Dom → List Ctx → String
  | el, [] => if domId el ≠ "" then "#" ++ domId el else strToLower el.tag
  | el, step :: rest =>
    if domId el ≠ "" then "#" ++ domId el
    else
      let tag := strToLower el.tag
      let parent : Dom := .node step.parentData step.siblings
      let sameTag := step.siblings.filter (fun s => s.tag = el.tag)
      if sameTag.length = 1 then
        buildSelector parent rest ++ " > " ++ tag
      else
        let idx := (step.siblings.take step.idx).countP (fun s => s.tag = el.tag) + 1
        buildSelector parent rest ++ " > " ++ tag ++ ":nth-of-type(" ++ toString idx ++ ")"

/-- Embedded `findLabelText`: an explicit `label[for=id]` anywhere in the document,
else a wrapping `label` ancestor. -/
def findLabelText (root : Dom) (input : Dom) (ctx : List Ctx) : Option String :=
  let explicit : Option Dom :=
    if domId input ≠ "" then
      ((nodesWithCtx root []).map (fun p => p.1)).find?
        (fun lbl => strToLower lbl.tag = "label" &&
          decide (getAttr lbl "for" = some (domId input)))
    else none
  match explicit with
  | some lbl => some (strTrim (textContent lbl))
  | none =>
    match closest input ctx (fun a => strToLower a.tag = "label") with
    | some wrapping => some (strTrim (textContent wrapping))
    | none => none

/-- Embedded `isIgnored`: the element carries `data-tool-ignore`. -/
def isIgnored (el : Dom) : Bool :=
  hasAttr el "data-tool-ignore"

/-- The override fields read by `readToolAttributes`. -/
structure Overrides where
  overrideName : Option String
  overrideDescription : Option String
  overrideAnnotations : Option ToolAnnotations

/-- Embedded `readToolAttributes`: declarative `data-tool-*` attributes; the
annotations object is built only if at least one hint attribute is
present, and contains exactly the hints that are present. -/
def readToolAttributes (el : Dom) : Overrides :=
  let name := getAttr el "data-tool-name"
  let description := getAttr el "data-tool-description"
  let hasReadOnly := hasAttr el "data-tool-readonly"
  let hasDestructive := hasAttr el "data-tool-destructive"
  let hasIdempotent := hasAttr el "data-tool-idempotent"
  let hasOpenWorld := hasAttr el "data-tool-open-world"
  let annotations : Option ToolAnnotations :=
    if hasReadOnly || hasDestructive || hasIdempotent || hasOpenWorld then
      some { readOnlyHint := if hasReadOnly then some true else none
             destructiveHint := if hasDestructive then some true else none
             idempotentHint := if hasIdempotent then some true else none
             openWorldHint := if hasOpenWorld then some true else none }
    else none
  { overrideName := name, overrideDescription := description,
    overrideAnnotations := annotations }

/-- The inner `forEach` of `scanForms`: one input/select/textarea becomes a
`ScannedInput`, skipping non-data input types and unnamed fields. -/
def scanInput (root : Dom) (p : Dom × List Ctx) : Option ScannedInput :=
  let input := p.1
  let t := strToLower input.tag
  if !(t = "input" || t = "select" || t = "textarea") then none
  else
    let itype := if t = "input" then strToLower ((getAttr input "type").getD "text") else t
    if t = "input" &&
        (itype = "hidden" || itype = "submit" || itype = "button" ||
         itype = "reset" || itype = "image") then none
    else
      let name := jsOr (getAttr input "name") (jsOr (getAttr input "id") "")
      if name = "" then none
      else
        some { name := name
               inputType := itype
               required := hasAttr input "required"
               placeholder :=
                 if t = "input" then
                   match getAttr input "placeholder" with
                   | some s => if s = "" then none else some s
                   | none => none
                 else none
               label := findLabelText root input p.2
               overrideParamDescription := getAttr input "data-tool-param" }

/-- The `forEach` body of `scanForms` for one candidate node. -/
def formEntry (root : Dom) (p : Dom × List Ctx) : Option ScannedElement :=
  let form := p.1
  if !(strToLower form.tag = "form") then none
  else if isIgnored form then none
  else
    let ov := readToolAttributes form
    let inputs := (descendantsWithCtx form p.2).filterMap (scanInput root)
    some { type := .form
           id := if domId form ≠ "" then some (domId form) else none
           selector := buildSelector form p.2
           action :=
             match getAttr form "action" with
             | some s => if s = "" then none else some s
             | none => none
           method := some (strToUpper (jsOr (getAttr form "method") "GET"))
           inputs := some inputs
           overrideName := ov.overrideName
           overrideDescription := ov.overrideDescription
           overrideAnnotations := ov.overrideAnnotations }

/-- Whether a node matches
`button, [role="button"], input[type="button"], input[type="submit"]`. -/
def isButtonCandidate (el : Dom) : Bool :=
  strToLower el.tag = "button" ||
  decide (getAttr el "role" = some "button") ||
  (strToLower el.tag = "input" &&
    (strToLower ((getAttr el "type").getD "") = "button" ||
     strToLower ((getAttr el "type").getD "") = "submit"))

/-- The `forEach` body of `scanButtons` for one candidate node: skip
ignored nodes, nodes with no identifying signal (unless a name override is
present), and form-internal controls. -/
def buttonEntry (_docRoot : Dom) (p : Dom × List Ctx) : Option ScannedElement :=
  let el := p.1
  if !isButtonCandidate el then none
  else if isIgnored el then none
  else
    let ov := readToolAttributes el
    let ariaLabel := getAttr el "aria-label"
    let trimmed := strTrim (textContent el)
    let textC : Option String := if trimmed = "" then none else some trimmed
    let idOpt : Option String := if domId el ≠ "" then some (domId el) else none
    if !jsTruthy ov.overrideName && !jsTruthy ariaLabel && !jsTruthy idOpt &&
        !jsTruthy textC then none
    else if (closest el p.2 (fun a => strToLower a.tag = "form")).isSome then none
    else
      some { type := .button
             id := idOpt
             selector := buildSelector el p.2
             ariaLabel := ariaLabel
             textContent := textC
             overrideName := ov.overrideName
             overrideDescription := ov.overrideDescription
             overrideAnnotations := ov.overrideAnnotations }

/-- Embedded `STANDARD_SELECTORS`: the selectors already covered by `scanForms` and
`scanButtons`. -/
def matchesStandardSelectors (el : Dom) : Bool :=
  strToLower el.tag = "form" || isButtonCandidate el

/-- The `forEach` body of `scanAnnotated` for one `[data-tool-name]` node. -/
def annotatedEntry (_docRoot : Dom) (p : Dom × List Ctx) : Option ScannedElement :=
  let el := p.1
  if !hasAttr el "data-tool-name" then none
  else if isIgnored el then none
  else if matchesStandardSelectors el ||
      (closest el p.2 (fun a => strToLower a.tag = "form")).isSome then none
  else
    let ov := readToolAttributes el
    let ariaLabel := getAttr el "aria-label"
    let trimmed := strTrim (textContent el)
    let textC : Option String := if trimmed = "" then none else some trimmed
    let idOpt : Option String := if domId el ≠ "" then some (domId el) else none
    some { type := .button
           id := idOpt
           selector := buildSelector el p.2
           ariaLabel := ariaLabel
           textContent := textC
           overrideName := ov.overrideName
           overrideDescription := ov.overrideDescription
           overrideAnnotations := ov.overrideAnnotations }

/-- Embedded `scanForms`: pass (a) over the whole document. -/
def scanForms (root : Dom) : List ScannedElement :=
  (nodesWithCtx root []).filterMap (formEntry root)

/-- Embedded `scanButtons`: pass (b) over the whole document. -/
def scanButtons (root : Dom) : List ScannedElement :=
  (nodesWithCtx root []).filterMap (buttonEntry root)

/-- Embedded `scanAnnotated`: pass (c) over the whole document. -/
def scanAnnotated (root : Dom) : List ScannedElement :=
  (nodesWithCtx root []).filterMap (annotatedEntry root)

/-- Embedded `scanDOM`: the three passes concatenated. -/
def scanDOM (root : Dom) : List ScannedElement :=
  scanForms root ++ scanButtons root ++ scanAnnotated root

end ThirdEye

namespace ThirdEye

-- ── Result projections and concrete fixtures ───────────────────────────────

/-- A concrete DELETE form with name and description overrides. -/
def wipeFormElement : ScannedElement :=
  { type := .form
    selector := "#wipe-form"
    method := some "Delete"
    inputs := some []
    overrideName := some "wipe_account"
    overrideDescription := some "Wipe the account" }

/-- A concrete button whose label mixes both vocabularies. -/
def cancelSearchButton : ScannedElement :=
  { type := .button
    selector := "#cs"
    ariaLabel := some "Cancel search" }

/-- A concrete tool whose element has vanished. -/
def staleTool : ToolSchema :=
  { name := "submit_search"
    description := "Submit the search form"
    parameters := { properties := [], required := [] }
    selector := "#search-form"
    elementType := .form }

/-- A concrete ignored button with every other identifying attribute set. -/
def ignoredButton : Dom :=
  .node { tag := "button"
          attrs := [("data-tool-ignore", ""), ("id", "nuke"),
                    ("aria-label", "Nuke"), ("data-tool-name", "nuke_it")] } []

/-- A host runtime whose `registerTool` never throws. -/
def neverGlitch : String → Bool := fun _ => false

/-- A concrete descriptor named `t1`. -/
def toolOne : ToolSchema :=
  { name := "t1"
    description := "first"
    parameters := { properties := [], required := [] }
    selector := "#one"
    elementType := .button }

/-- A second concrete descriptor that collides with `toolOne` on name. -/
def toolOneDup : ToolSchema :=
  { name := "t1"
    description := "second"
    parameters := { properties := [], required := [] }
    selector := "#two"
    elementType := .button }

/-- A registry that already holds `t1`. -/
def regWithOne : RegistrarState :=
  { registeredTools := [("t1", "#one")]
    hostCalls := ["t1"]
    events := [TEvent.toolRegistered "t1"] }

/-- A concrete element without overrides, for exercising the remote path. -/
def plainButtonElement : ScannedElement :=
  { type := .button
    selector := "#go"
    ariaLabel := some "Go" }

/-- The storage left behind by a fetch outcome, when it did not throw. -/
def storageOf (r : Except String FetchResult) : Option Storage :=
  r.toOption.map (fun x => x.storage)

/-- Property lookup in a generated input schema. -/
def lookupProp (schema : ToolInputSchema) (k : String) : Option SchemaProperty :=
  (schema.properties.find? (fun p => p.1 = k)).map (fun p => p.2)

/-- A DELETE form whose developer set only the read-only hint. -/
def deleteFormReadOnlyOverride : ScannedElement :=
  { type := .form
    selector := "#df"
    method := some "DELETE"
    inputs := some []
    overrideAnnotations := some { readOnlyHint := some true } }

/-- A concrete form exercising every override surface at once. -/
def fullyOverriddenForm : ScannedElement :=
  { type := .form
    selector := "#of"
    method := some "POST"
    inputs := some [{ name := "q", inputType := "text", required := true,
                      overrideParamDescription := some "the query" }]
    overrideName := some "my_tool"
    overrideDescription := some "my description"
    overrideAnnotations := some { idempotentHint := some true } }

/-- A document whose only actionable node is a form with no id, no label,
no text and no developer override. -/
def noSignalFormDoc : Dom :=
  .node { tag := "body", attrs := [] } [.node { tag := "form", attrs := [] } []]

/-- The element the scan produces for that form. -/
def noSignalFormElement : ScannedElement :=
  { type := .form
    id := none
    selector := "body > form"
    action := none
    method := some "GET"
    inputs := some []
    overrideName := none
    overrideDescription := none
    overrideAnnotations := none }

/-- A document with one labeled standalone button. -/
def labeledButtonDoc : Dom :=
  .node { tag := "body", attrs := [] }
    [.node { tag := "button", attrs := [("aria-label", "Go")] } []]

/-- The element the scan produces for that button. -/
def labeledButtonElement : ScannedElement :=
  { type := .button
    id := none
    selector := "body > button"
    ariaLabel := some "Go"
    textContent := none }

-- ── Helper lemmas ───────────────────────────────────────────────────────────

/-- The confirmation phase never emits a `TOOL_SUCCESS` beacon. -/
theorem confirm_events_no_success (schema : ToolSchema) (cb : ConfirmBehavior) :
    ((maybeConfirmDestructive schema cb).1.any TEvent.isToolSuccess) = false := by
  unfold maybeConfirmDestructive
  split
  · rfl
  · cases cb <;> simp [TEvent.isToolSuccess]

/-- A non-empty element list yields a non-empty local descriptor list. -/
theorem generateLocalSchemas_ne_nil (elements : List ScannedElement)
    (h : elements ≠ []) : generateLocalSchemas elements ≠ [] := by
  match elements with
  | [] => exact absurd rfl h
  | e :: rest =>
    unfold generateLocalSchemas
    cases e.type <;> simp

end ThirdEye

namespace ThirdEye

-- ── C8 ──────────────────────────────────────────────────────────────────────

/-- C8: a scanned form element whose method uppercases to `DELETE`, carrying
a name override and a description override but no annotation override,
yields a local descriptor whose name and description are the overrides and
whose annotations are inferred from the HTTP method: `destructiveHint`
is set. -/
theorem c8_delete_form_override_mix (e : ScannedElement) (m n d : String)
    (hm : e.method = some m) (hup : strToUpper m = "DELETE")
    (hn : e.overrideName = some n) (hd : e.overrideDescription = some d)
    (ha : e.overrideAnnotations = none) :
    (schemaFromForm e).name = n ∧ (schemaFromForm e).description = d ∧
    (schemaFromForm e).annotations =
      some { destructiveHint := some true, readOnlyHint := some false } := by
  unfold schemaFromForm
  rw [hn, hd, ha, hm]
  refine ⟨rfl, rfl, ?_⟩
  simp only [Option.getD_none, Option.getD_some]
  unfold inferFormAnnotations
  simp only [Option.getD_some, hup]
  decide

/-- Witness for C8 at a concrete DELETE form. -/
theorem c8_delete_form_override_mix_witness :
    (schemaFromForm wipeFormElement).name = "wipe_account" ∧
    (schemaFromForm wipeFormElement).description = "Wipe the account" ∧
    (schemaFromForm wipeFormElement).annotations =
      some { destructiveHint := some true, readOnlyHint := some false } :=
  c8_delete_form_override_mix wipeFormElement "Delete" _ _ rfl (by decide) rfl rfl rfl

-- ── C10 ─────────────────────────────────────────────────────────────────────

/-- C10: a standalone button without an annotation override whose accessible
text contains a destructive keyword is marked destructive even when it
also contains a read-only keyword — the destructive vocabulary check wins. -/
theorem c10_destructive_beats_readonly (e : ScannedElement)
    (hov : e.overrideAnnotations = none)
    (hdw : destructiveWords.any (fun w => strIncludes (buttonText e) w) = true)
    (_hrw : readOnlyWords.any (fun w => strIncludes (buttonText e) w) = true) :
    inferButtonAnnotations e =
      { destructiveHint := some true, readOnlyHint := some false } ∧
    (schemaFromButton e).annotations =
      some { destructiveHint := some true, readOnlyHint := some false } := by
  have h1 : inferButtonAnnotations e =
      { destructiveHint := some true, readOnlyHint := some false } := by
    simp [inferButtonAnnotations, hdw]
  refine ⟨h1, ?_⟩
  unfold schemaFromButton
  rw [hov, Option.getD_none, h1]

/-- Witness for C10 at a button labeled with both vocabularies. -/
theorem c10_destructive_beats_readonly_witness :
    inferButtonAnnotations cancelSearchButton =
      { destructiveHint := some true, readOnlyHint := some false } ∧
    (schemaFromButton cancelSearchButton).annotations =
      some { destructiveHint := some true, readOnlyHint := some false } :=
  c10_destructive_beats_readonly cancelSearchButton rfl (by decide) (by decide)

end ThirdEye

namespace ThirdEye

-- ── C1 ──────────────────────────────────────────────────────────────────────

/-- C1: when the selector of an invoked tool no longer resolves and the
confirmation phase lets execution proceed, the wrapped execute handler
emits a `TOOL_ERROR` beacon carrying the not-found message and the elapsed
duration (positive whenever the clock advanced), emits no `TOOL_SUCCESS`
beacon, and re-raises the not-found error to the invoking agent. -/
theorem c1_not_found_error_propagates (schema : ToolSchema) (cb : ConfirmBehavior)
    (tStart tEnd : Nat)
    (hallow : (maybeConfirmDestructive schema cb).2 = true)
    (ht : tStart < tEnd) :
    (wrappedExecute schema cb false tStart tEnd).2 = .error (notFoundMsg schema) ∧
    (wrappedExecute schema cb false tStart tEnd).1 =
      [TEvent.toolAttempt schema.name] ++ (maybeConfirmDestructive schema cb).1 ++
        [TEvent.toolError schema.name (notFoundMsg schema) (tEnd - tStart)] ∧
    0 < tEnd - tStart ∧
    ((wrappedExecute schema cb false tStart tEnd).1.any TEvent.isToolSuccess) = false := by
  have hdur : 0 < tEnd - tStart := Nat.sub_pos_of_lt ht
  have hres : wrappedExecute schema cb false tStart tEnd =
      ([TEvent.toolAttempt schema.name] ++ (maybeConfirmDestructive schema cb).1 ++
        [TEvent.toolError schema.name (notFoundMsg schema) (tEnd - tStart)],
       .error (notFoundMsg schema)) := by
    simp [wrappedExecute, hallow]
  rw [hres]
  refine ⟨rfl, rfl, hdur, ?_⟩
  simp [TEvent.isToolSuccess, confirm_events_no_success schema cb]

/-- Witness for C1: the stale tool, a non-destructive invocation, clock 0 → 7. -/
theorem c1_not_found_error_propagates_witness :
    (wrappedExecute staleTool .noSupport false 0 7).2 =
      .error (notFoundMsg staleTool) ∧
    (wrappedExecute staleTool .noSupport false 0 7).1 =
      [TEvent.toolAttempt staleTool.name] ++
        (maybeConfirmDestructive staleTool .noSupport).1 ++
        [TEvent.toolError staleTool.name (notFoundMsg staleTool) (7 - 0)] ∧
    0 < 7 - 0 ∧
    ((wrappedExecute staleTool .noSupport false 0 7).1.any TEvent.isToolSuccess) = false :=
  c1_not_found_error_propagates staleTool .noSupport 0 7 (by decide) (by decide)

-- ── C9 ──────────────────────────────────────────────────────────────────────

/-- A pending debounce deadline survives a burst that stays inside the
window, and exactly one reconciliation fires at the end. -/
theorem reconCount_pending_one (ts : List Nat) :
    ∀ t, withinWindow t ts = true → reconCount (some (t + debounceMs)) ts = 1 := by
  induction ts with
  | nil => intro t _; rfl
  | cons t1 rest ih =>
    intro t h
    unfold withinWindow at h
    rw [Bool.and_eq_true] at h
    obtain ⟨h1, h2⟩ := h
    have hlt : t1 < t + debounceMs := of_decide_eq_true h1
    have hneg : ¬ (t + debounceMs ≤ t1) := by omega
    simp only [reconCount, debouncedRescan]
    rw [if_neg hneg]
    exact ih t1 h2

/-- C9: a burst of `N ≥ 1` mutation or navigation signals whose gaps all
stay inside the 300 ms debounce window produces exactly one
reconciliation: each signal cancels the pending timer and schedules a
single new one, so only the last timer fires. -/
theorem c9_debounced_burst_single_reconciliation (t0 : Nat) (ts : List Nat)
    (h : withinWindow t0 ts = true) :
    reconCount none (t0 :: ts) = 1 := by
  simp only [reconCount, debouncedRescan]
  exact reconCount_pending_one ts t0 h

/-- Witness for C9: three signals at 0 ms, 100 ms and 250 ms. -/
theorem c9_debounced_burst_single_reconciliation_witness :
    reconCount none [0, 100, 250] = 1 :=
  c9_debounced_burst_single_reconciliation 0 [100, 250] (by decide)

end ThirdEye

namespace ThirdEye

-- ── C7 ──────────────────────────────────────────────────────────────────────

/-- C7: a node carrying the `data-tool-ignore` marker contributes nothing to
any of the three scan passes, whatever its other attributes, and the scan
result is exactly the three passes concatenated, so the node never appears
in any scan result. -/
theorem c7_ignored_never_scanned (root : Dom) (n : Dom) (ctx : List Ctx)
    (hig : isIgnored n = true) :
    formEntry root (n, ctx) = none ∧
    buttonEntry root (n, ctx) = none ∧
    annotatedEntry root (n, ctx) = none ∧
    scanDOM root = (nodesWithCtx root []).filterMap (formEntry root) ++
      (nodesWithCtx root []).filterMap (buttonEntry root) ++
      (nodesWithCtx root []).filterMap (annotatedEntry root) := by
  refine ⟨?_, ?_, ?_, rfl⟩
  · simp [formEntry, hig]
  · simp [buttonEntry, hig]
  · simp [annotatedEntry, hig]

/-- Witness for C7 at a concrete ignored node inside a one-node document. -/
theorem c7_ignored_never_scanned_witness :
    formEntry ignoredButton (ignoredButton, []) = none ∧
    buttonEntry ignoredButton (ignoredButton, []) = none ∧
    annotatedEntry ignoredButton (ignoredButton, []) = none ∧
    scanDOM ignoredButton =
      (nodesWithCtx ignoredButton []).filterMap (formEntry ignoredButton) ++
      (nodesWithCtx ignoredButton []).filterMap (buttonEntry ignoredButton) ++
      (nodesWithCtx ignoredButton []).filterMap (annotatedEntry ignoredButton) :=
  c7_ignored_never_scanned ignoredButton ignoredButton [] (by decide)

-- ── C4 ──────────────────────────────────────────────────────────────────────

/-- Appending a pair with the sought name makes `hasToolName` true. -/
theorem hasToolName_append_self (s : RegistrarState) (name sel : String)
    (calls : List String) (evs : List TEvent) :
    hasToolName { registeredTools := s.registeredTools ++ [(name, sel)],
                  hostCalls := calls, events := evs } name = true := by
  simp [hasToolName]

/-- A name absent from the registry according to `hasToolName` is not a key. -/
theorem hasToolName_false_not_mem (s : RegistrarState) (nm : String)
    (h : hasToolName s nm = false) : nm ∉ s.registeredTools.map Prod.fst := by
  intro hmem
  rw [List.mem_map] at hmem
  obtain ⟨p, hp, hfst⟩ := hmem
  have hany : s.registeredTools.any (fun q => q.1 = nm) = true :=
    List.any_eq_true.mpr ⟨p, hp, by simp [hfst]⟩
  simp only [hasToolName] at h
  rw [h] at hany
  exact Bool.false_ne_true hany

/-- The registration loop preserves the no-duplicate-names invariant. -/
theorem registerToolsLoop_nodup (glitch : String → Bool) :
    ∀ (schemas : List ToolSchema) (s : RegistrarState),
      (s.registeredTools.map Prod.fst).Nodup →
      (((registerToolsLoop glitch schemas s).registeredTools.map Prod.fst).Nodup) := by
  intro schemas
  induction schemas with
  | nil => intro s h; exact h
  | cons c cs ih =>
    intro s h
    rw [registerToolsLoop]
    by_cases hname : hasToolName s c.name
    · rw [if_pos hname]
      exact ih s h
    · rw [if_neg hname]
      by_cases hg : glitch c.name
      · rw [if_pos hg]
        exact ih _ h
      · rw [if_neg hg]
        refine ih _ ?_
        have hnot : c.name ∉ s.registeredTools.map Prod.fst :=
          hasToolName_false_not_mem s c.name (by simpa using hname)
        simp only [List.map_append, List.map_cons, List.map_nil]
        rw [List.nodup_append]
        refine ⟨h, List.nodup_singleton _, ?_⟩
        intro x hx hx1
        rw [List.mem_singleton] at hx1
        exact hnot (hx1 ▸ hx)

/-- C4: registering a descriptor whose name is already present in the
registry is a no-op — the registry map, the host runtime calls and the
beacons are untouched for it, so a single-descriptor batch leaves the
state unchanged; two same-named descriptors in one batch register only the
first (when its host call does not itself fail); and registration
preserves the no-duplicate-names invariant of the registry. -/
theorem c4_registry_idempotent_no_dup (avail : Bool) (glitch : String → Bool)
    (s : RegistrarState) (a b : ToolSchema) (rest : List ToolSchema) :
    (hasToolName s a.name = true →
      registerTools avail glitch (a :: rest) s = registerTools avail glitch rest s) ∧
    (hasToolName s a.name = true → registerTools avail glitch [a] s = s) ∧
    (b.name = a.name → glitch a.name = false →
      registerTools avail glitch (a :: b :: rest) s =
        registerTools avail glitch (a :: rest) s) ∧
    ((s.registeredTools.map Prod.fst).Nodup →
      ((registerTools avail glitch rest s).registeredTools.map Prod.fst).Nodup) := by
  refine ⟨?_, ?_, ?_, ?_⟩
  · intro h
    cases avail with
    | false => rfl
    | true => simp [registerTools, registerToolsLoop, h]
  · intro h
    cases avail with
    | false => rfl
    | true => simp [registerTools, registerToolsLoop, h]
  · intro hb hg
    cases avail with
    | false => rfl
    | true =>
      by_cases hname : hasToolName s a.name
      · simp [registerTools, registerToolsLoop, hb, hname]
      · simp [registerTools, registerToolsLoop, hb, hname, hg, hasToolName_append_self]
  · intro h
    cases avail with
    | false => exact h
    | true =>
      show ((registerToolsLoop glitch rest s).registeredTools.map Prod.fst).Nodup
      exact registerToolsLoop_nodup glitch rest s h

end ThirdEye

namespace ThirdEye

/-- Witness for C4 at a concrete registry already holding the name. -/
theorem c4_registry_idempotent_no_dup_witness :
    registerTools true neverGlitch (toolOne :: [toolOneDup]) regWithOne =
      registerTools true neverGlitch [toolOneDup] regWithOne ∧
    registerTools true neverGlitch [toolOne] regWithOne = regWithOne ∧
    registerTools true neverGlitch (toolOne :: toolOneDup :: [toolOneDup]) regWithOne =
      registerTools true neverGlitch (toolOne :: [toolOneDup]) regWithOne ∧
    ((registerTools true neverGlitch [toolOneDup] regWithOne).registeredTools.map
      Prod.fst).Nodup := by
  obtain ⟨h1, h2, h3, h4⟩ :=
    c4_registry_idempotent_no_dup true neverGlitch regWithOne toolOne toolOneDup
      [toolOneDup]
  exact ⟨h1 (by decide), h2 (by decide), h3 (by decide) (by decide), h4 (by decide)⟩

end ThirdEye

namespace ThirdEye

-- ── C3 ──────────────────────────────────────────────────────────────────────

/-- C3: for every element list, endpoint and remote outcome, descriptor
synthesis never throws to its caller; whenever a remote request was issued
and the remote outcome is a failure (non-2xx, thrown, or an empty schema
array), the returned descriptors are the locally generated ones; and local
generation is non-empty whenever the input has an element (every scanned
element is a form or a button). -/
theorem c3_fetch_never_throws_falls_back_local (elements : List ScannedElement)
    (endpoint : Option String) (skipCache : Bool) (st : Storage) (path : String)
    (now : Nat) (remote : RemoteResult) :
    (fetchSchemas elements endpoint skipCache st path now remote).isOk = true ∧
    (remoteFails remote = true →
      requestsOf (fetchSchemas elements endpoint skipCache st path now remote) = some 1 →
      schemasOf (fetchSchemas elements endpoint skipCache st path now remote) =
        some (generateLocalSchemas elements)) ∧
    (elements ≠ [] → generateLocalSchemas elements ≠ []) := by
  rcases hstep : (if !skipCache then getCachedSchemas st path now else (none, st))
    with ⟨copt, st1⟩
  cases copt with
  | some cached =>
    have hval : fetchSchemas elements endpoint skipCache st path now remote =
        .ok { schemas := cached, requests := 0, storage := st1 } := by
      unfold fetchSchemas
      rw [hstep]
    refine ⟨by rw [hval]; rfl, ?_, fun h => generateLocalSchemas_ne_nil elements h⟩
    intro _ hreq
    rw [hval] at hreq
    simp [requestsOf, Except.toOption] at hreq
  | none =>
    by_cases hov : allOverridden elements = true
    · have hval : fetchSchemas elements endpoint skipCache st path now remote =
          .ok { schemas := generateLocalSchemas elements, requests := 0, storage := st1 } := by
        unfold fetchSchemas
        rw [hstep]
        simp [hov]
      refine ⟨by rw [hval]; rfl, ?_, fun h => generateLocalSchemas_ne_nil elements h⟩
      intro _ hreq
      rw [hval] at hreq
      simp [requestsOf, Except.toOption] at hreq
    · cases endpoint with
      | none =>
        have hval : fetchSchemas elements none skipCache st path now remote =
            .ok { schemas := generateLocalSchemas elements, requests := 0, storage := st1 } := by
          unfold fetchSchemas
          rw [hstep]
          simp [hov]
        refine ⟨by rw [hval]; rfl, ?_, fun h => generateLocalSchemas_ne_nil elements h⟩
        intro _ hreq
        rw [hval] at hreq
        simp [requestsOf, Except.toOption] at hreq
      | some ep =>
        cases remote with
        | success schemas =>
          by_cases hlen : schemas.length > 0
          · have hval : fetchSchemas elements (some ep) skipCache st path now
                (.success schemas) =
                .ok { schemas := schemas, requests := 1,
                      storage := cacheSchemas st1 path schemas now } := by
              unfold fetchSchemas
              rw [hstep]
              simp [hov, remoteCall, hlen]
            refine ⟨by rw [hval]; rfl, ?_, fun h => generateLocalSchemas_ne_nil elements h⟩
            intro hfail _
            have : schemas = [] := by
              simpa [remoteFails, List.isEmpty_iff] using hfail
            subst this
            simp at hlen
          · have hval : fetchSchemas elements (some ep) skipCache st path now
                (.success schemas) =
                .ok { schemas := generateLocalSchemas elements, requests := 1,
                      storage := st1 } := by
              unfold fetchSchemas
              rw [hstep]
              simp [hov, remoteCall, hlen]
            refine ⟨by rw [hval]; rfl, ?_, fun h => generateLocalSchemas_ne_nil elements h⟩
            intro _ _
            rw [hval]
            simp [schemasOf, Except.toOption]
        | httpFailure status =>
          have hval : fetchSchemas elements (some ep) skipCache st path now
              (.httpFailure status) =
              .ok { schemas := generateLocalSchemas elements, requests := 1,
                    storage := st1 } := by
            unfold fetchSchemas
            rw [hstep]
            simp [hov, remoteCall]
          refine ⟨by rw [hval]; rfl, ?_, fun h => generateLocalSchemas_ne_nil elements h⟩
          intro _ _
          rw [hval]
          simp [schemasOf, Except.toOption]
        | thrown msg =>
          have hval : fetchSchemas elements (some ep) skipCache st path now
              (.thrown msg) =
              .ok { schemas := generateLocalSchemas elements, requests := 1,
                    storage := st1 } := by
            unfold fetchSchemas
            rw [hstep]
            simp [hov, remoteCall]
          refine ⟨by rw [hval]; rfl, ?_, fun h => generateLocalSchemas_ne_nil elements h⟩
          intro _ _
          rw [hval]
          simp [schemasOf, Except.toOption]

/-- Witness for C3: a thrown network error at a concrete environment falls
back to local generation without throwing. -/
theorem c3_fetch_never_throws_falls_back_local_witness :
    (fetchSchemas [plainButtonElement] (some "https://api.example") false [] "/p" 0
      (.thrown "network down")).isOk = true ∧
    schemasOf (fetchSchemas [plainButtonElement] (some "https://api.example") false [] "/p" 0
      (.thrown "network down")) = some (generateLocalSchemas [plainButtonElement]) ∧
    generateLocalSchemas [plainButtonElement] ≠ [] := by
  obtain ⟨h1, h2, h3⟩ :=
    c3_fetch_never_throws_falls_back_local [plainButtonElement] (some "https://api.example")
      false [] "/p" 0 (.thrown "network down")
  exact ⟨h1, h2 (by decide) (by decide), h3 (by decide)⟩

end ThirdEye

namespace ThirdEye

-- ── C5 ──────────────────────────────────────────────────────────────────────

/-- Counterexample to C5 as stated: with a failing remote service, two
synthesize calls for the same element set and path within 5 minutes issue
one remote request EACH (two in total), because a failed first call caches
nothing — its storage is still empty, so the second call misses the cache
and contacts the remote service again. -/
theorem c5_cex_two_requests_on_failure :
    requestsOf (fetchSchemas [plainButtonElement] (some "https://api.example") false []
      "/p" 0 (.httpFailure 500)) = some 1 ∧
    storageOf (fetchSchemas [plainButtonElement] (some "https://api.example") false []
      "/p" 0 (.httpFailure 500)) = some [] ∧
    requestsOf (fetchSchemas [plainButtonElement] (some "https://api.example") false []
      "/p" 60000 (.httpFailure 500)) = some 1 := by
  decide

/-- Writing a key makes it readable. -/
theorem getItem_setItem (st : Storage) (k : String) (v : CacheEntry) :
    getItem (setItem st k v) k = some v := by
  induction st with
  | nil => simp [getItem, setItem]
  | cons p rest ih =>
    obtain ⟨k0, v0⟩ := p
    by_cases h : k0 = k
    · subst h
      simp [getItem, setItem, List.find?]
    · simpa [getItem, setItem, List.find?, h] using ih

/-- C5 (amended): when the first call's remote request succeeds with a
non-empty descriptor list, the result is cached under the current document
path, and a second call within 5 minutes without `bypassCache` returns the
cached entry without contacting the remote service — so the two calls
issue exactly one remote request between them.  (When the remote attempt
fails, nothing is cached and a later call issues its own request.) -/
theorem c5_amended_cache_roundtrip (elements : List ScannedElement) (ep : String)
    (st : Storage) (path : String) (t1 t2 : Nat) (schemas1 : List ToolSchema)
    (remote2 : RemoteResult)
    (hmiss : getItem st (cacheKey path) = none)
    (hov : allOverridden elements = false)
    (hne : schemas1 ≠ [])
    (hwithin : t2 - t1 ≤ cacheTtlMs) :
    fetchSchemas elements (some ep) false st path t1 (.success schemas1) =
      .ok { schemas := schemas1, requests := 1,
            storage := setItem st (cacheKey path)
              { schemas := schemas1, timestamp := t1 } } ∧
    fetchSchemas elements (some ep) false
        (setItem st (cacheKey path) { schemas := schemas1, timestamp := t1 })
        path t2 remote2 =
      .ok { schemas := schemas1, requests := 0,
            storage := setItem st (cacheKey path)
              { schemas := schemas1, timestamp := t1 } } := by
  constructor
  · have hstep : getCachedSchemas st path t1 = (none, st) := by
      simp [getCachedSchemas, hmiss]
    unfold fetchSchemas
    rw [show (if !false then getCachedSchemas st path t1 else (none, st)) =
        (none, st) from by rw [hstep]; rfl]
    have hlen : schemas1.length > 0 := List.length_pos.mpr hne
    simp [hov, remoteCall, hlen, cacheSchemas]
  · have hget : getItem (setItem st (cacheKey path)
        { schemas := schemas1, timestamp := t1 }) (cacheKey path) =
        some { schemas := schemas1, timestamp := t1 } :=
      getItem_setItem st (cacheKey path) _
    have hstep2 : getCachedSchemas
        (setItem st (cacheKey path) { schemas := schemas1, timestamp := t1 }) path t2 =
        (some schemas1,
          setItem st (cacheKey path) { schemas := schemas1, timestamp := t1 }) := by
      have hno : ¬ (t2 - t1 > cacheTtlMs) := by omega
      simp [getCachedSchemas, hget, hno]
    unfold fetchSchemas
    rw [show (if !false then getCachedSchemas
        (setItem st (cacheKey path) { schemas := schemas1, timestamp := t1 }) path t2
        else (none, setItem st (cacheKey path)
          { schemas := schemas1, timestamp := t1 })) =
        (some schemas1,
          setItem st (cacheKey path) { schemas := schemas1, timestamp := t1 })
      from by rw [hstep2]; rfl]

/-- Witness for the amended C5 at a concrete success-then-hit pair. -/
theorem c5_amended_cache_roundtrip_witness :
    fetchSchemas [plainButtonElement] (some "https://api.example") false [] "/p" 0
      (.success [toolOne]) =
      .ok { schemas := [toolOne], requests := 1,
            storage := setItem [] (cacheKey "/p")
              { schemas := [toolOne], timestamp := 0 } } ∧
    fetchSchemas [plainButtonElement] (some "https://api.example") false
        (setItem [] (cacheKey "/p") { schemas := [toolOne], timestamp := 0 })
        "/p" 60000 (.httpFailure 500) =
      .ok { schemas := [toolOne], requests := 0,
            storage := setItem [] (cacheKey "/p")
              { schemas := [toolOne], timestamp := 0 } } :=
  c5_amended_cache_roundtrip [plainButtonElement] "https://api.example" [] "/p" 0 60000
    [toolOne] (.httpFailure 500) (by decide) (by decide) (by decide) (by decide)

end ThirdEye

namespace ThirdEye

-- ── C2 ──────────────────────────────────────────────────────────────────────

/-- Counterexample to C2 as stated: on a DELETE form whose developer set
only the read-only hint, inference would set `destructiveHint`, but the
generated descriptor's annotations are exactly the override object — the
destructive flag is NOT filled in from inference, because the override
replaces the inferred annotations as a whole object, not field by field. -/
theorem c2_cex_annotations_not_field_by_field :
    (inferFormAnnotations deleteFormReadOnlyOverride.method).destructiveHint = some true ∧
    (schemaFromForm deleteFormReadOnlyOverride).annotations =
      some { readOnlyHint := some true } ∧
    ((schemaFromForm deleteFormReadOnlyOverride).annotations.map
      ToolAnnotations.destructiveHint) = some none := by
  decide

/-- Embedded `setProp` makes the written key readable. -/
theorem find?_setProp_self (ps : List (String × SchemaProperty)) (k : String)
    (v : SchemaProperty) :
    (setProp ps k v).find? (fun p => p.1 = k) = some (k, v) := by
  induction ps with
  | nil => simp [setProp, List.find?]
  | cons p rest ih =>
    obtain ⟨k0, v0⟩ := p
    by_cases h : k0 = k
    · subst h
      simp [setProp, List.find?]
    · simp only [setProp, if_neg h, List.find?]
      rw [decide_eq_false h]
      exact ih

/-- Embedded `setProp` at another key leaves a lookup unchanged. -/
theorem find?_setProp_ne (ps : List (String × SchemaProperty)) (k k2 : String)
    (v : SchemaProperty) (h : k2 ≠ k) :
    (setProp ps k2 v).find? (fun p => p.1 = k) = ps.find? (fun p => p.1 = k) := by
  induction ps with
  | nil => simp [setProp, List.find?, h]
  | cons p rest ih =>
    obtain ⟨k0, v0⟩ := p
    by_cases h0 : k0 = k2
    · subst h0
      have hk : ¬ (k0 = k) := fun hh => h (hh ▸ rfl)
      simp only [setProp, if_pos rfl, List.find?]
      rw [decide_eq_false hk]
    · simp only [setProp, if_neg h0, List.find?]
      by_cases hk : k0 = k
      · rw [decide_eq_true hk]
      · rw [decide_eq_false hk]
        exact ih

/-- The schema-building loop does not touch keys outside the remaining
inputs. -/
theorem buildInputProps_untouched (k : String) :
    ∀ (inputs : List ScannedInput) (ps : List (String × SchemaProperty))
      (rq : List String), (∀ i ∈ inputs, i.name ≠ k) →
      (buildInputProps inputs ps rq).1.find? (fun p => p.1 = k) =
        ps.find? (fun p => p.1 = k) := by
  intro inputs
  induction inputs with
  | nil =>
    intro ps rq _
    rfl
  | cons i rest ih =>
    intro ps rq h
    rw [buildInputProps]
    rw [ih _ _ (fun j hj => h j (List.mem_cons_of_mem i hj))]
    exact find?_setProp_ne ps k i.name (mkProp i) (h i (List.mem_cons_self i rest))

/-- With duplicate-free input names, the built schema maps each input's
name to exactly the property built for it. -/
theorem buildInputProps_found :
    ∀ (inputs : List ScannedInput) (ps : List (String × SchemaProperty))
      (rq : List String) (inp : ScannedInput),
      inp ∈ inputs → (inputs.map ScannedInput.name).Nodup →
      (buildInputProps inputs ps rq).1.find? (fun p => p.1 = inp.name) =
        some (inp.name, mkProp inp) := by
  intro inputs
  induction inputs with
  | nil =>
    intro ps rq inp h _
    exact absurd h (List.not_mem_nil inp)
  | cons i rest ih =>
    intro ps rq inp hmem hnodup
    have hnodup1 : i.name ∉ rest.map ScannedInput.name ∧
        (rest.map ScannedInput.name).Nodup := by
      rw [List.map_cons, List.nodup_cons] at hnodup
      exact hnodup
    rw [buildInputProps]
    rcases List.mem_cons.mp hmem with heq | hmem2
    · subst heq
      have hnotin : ∀ j ∈ rest, j.name ≠ inp.name := by
        intro j hj hx
        exact hnodup1.1 (hx ▸ List.mem_map_of_mem ScannedInput.name hj)
      rw [buildInputProps_untouched inp.name rest _ _ hnotin]
      exact find?_setProp_self ps inp.name (mkProp inp)
    · exact ih _ _ inp hmem2 hnodup1.2

/-- C2 (amended): developer overrides take precedence field-by-field for
the name, the description, and each per-field parameter description; the
annotation override, however, is applied as a whole object — if any hint
is explicitly set, the override object replaces inference entirely (unset
hints are left empty, not filled from inference), and only when no hint is
set do all four hints come from inference. -/
theorem c2_amended_override_precedence (e : ScannedElement) (n d : String)
    (a : ToolAnnotations) (inputs : List ScannedInput) (inp : ScannedInput)
    (s : String) :
    (e.overrideName = some n →
      (schemaFromForm e).name = n ∧ (schemaFromButton e).name = n) ∧
    (e.overrideDescription = some d →
      (schemaFromForm e).description = d ∧ (schemaFromButton e).description = d) ∧
    (e.overrideAnnotations = some a →
      (schemaFromForm e).annotations = some a ∧
      (schemaFromButton e).annotations = some a) ∧
    (e.overrideAnnotations = none →
      (schemaFromForm e).annotations = some (inferFormAnnotations e.method) ∧
      (schemaFromButton e).annotations = some (inferButtonAnnotations e)) ∧
    (e.inputs = some inputs → inp ∈ inputs →
      (inputs.map ScannedInput.name).Nodup →
      inp.overrideParamDescription = some s → s ≠ "" →
      (lookupProp (inputsToSchema e) inp.name).map SchemaProperty.description = some s) := by
  refine ⟨?_, ?_, ?_, ?_, ?_⟩
  · intro h
    constructor <;> simp [schemaFromForm, schemaFromButton, h]
  · intro h
    constructor <;> simp [schemaFromForm, schemaFromButton, h]
  · intro h
    constructor <;> simp [schemaFromForm, schemaFromButton, h]
  · intro h
    constructor <;> simp [schemaFromForm, schemaFromButton, h]
  · intro hin hmem hnodup hparam hs
    have hfound := buildInputProps_found inputs [] [] inp hmem hnodup
    have hdesc : (mkProp inp).description = s := by
      simp [mkProp, hparam, jsOr, hs]
    simp [lookupProp, inputsToSchema, hin, hfound, hdesc]

/-- Witness for the amended C2 at the concrete overridden form. -/
theorem c2_amended_override_precedence_witness :
    ((schemaFromForm fullyOverriddenForm).name = "my_tool" ∧
      (schemaFromButton fullyOverriddenForm).name = "my_tool") ∧
    ((schemaFromForm fullyOverriddenForm).description = "my description" ∧
      (schemaFromButton fullyOverriddenForm).description = "my description") ∧
    ((schemaFromForm fullyOverriddenForm).annotations =
        some { idempotentHint := some true } ∧
      (schemaFromButton fullyOverriddenForm).annotations =
        some { idempotentHint := some true }) ∧
    ((lookupProp (inputsToSchema fullyOverriddenForm) "q").map
      SchemaProperty.description = some "the query") := by
  obtain ⟨h1, h2, h3, _h4, h5⟩ :=
    c2_amended_override_precedence fullyOverriddenForm "my_tool" "my description"
      { idempotentHint := some true }
      [{ name := "q", inputType := "text", required := true,
         overrideParamDescription := some "the query" }]
      { name := "q", inputType := "text", required := true,
        overrideParamDescription := some "the query" }
      "the query"
  exact ⟨h1 rfl, h2 rfl, h3 rfl,
    h5 rfl (by decide) (by decide) rfl (by decide)⟩

end ThirdEye

namespace ThirdEye

-- ── C6 ──────────────────────────────────────────────────────────────────────

/-- Counterexample to C6 as stated: a form carrying no identifying signal
whatsoever — no id, no label, no visible text, no override — still appears
in the scan result; the form pass keeps every non-ignored form. -/
theorem c6_cex_signalless_form_scanned :
    scanDOM noSignalFormDoc = [noSignalFormElement] ∧
    noSignalFormElement.id = none ∧
    noSignalFormElement.overrideName = none ∧
    noSignalFormElement.overrideDescription = none ∧
    noSignalFormElement.overrideAnnotations = none ∧
    noSignalFormElement.ariaLabel = none ∧
    noSignalFormElement.textContent = none := by
  decide

/-- An attribute that is present reads back as some value. -/
theorem getAttr_isSome_of_hasAttr (el : Dom) (k : String)
    (h : hasAttr el k = true) : (getAttr el k).isSome = true := by
  unfold hasAttr at h
  have hfind : (el.getData.attrs.find? (fun q => decide (q.1 = k))).isSome :=
    List.find?_isSome.mpr (List.any_eq_true.mp h)
  obtain ⟨q, hq⟩ := Option.isSome_iff_exists.mp hfind
  unfold getAttr
  rw [hq]
  rfl

/-- C6 (amended): the no-identifying-signal exclusion holds for the button
pass (a standalone button appears only with a truthy name override,
accessible label, id, or visible text) and vacuously for the annotated
pass (every annotated element carries a name override by construction) —
but NOT for forms: the form pass keeps every non-ignored form, with or
without identifying signal. -/
theorem c6_amended_signal_required (root : Dom) (e : ScannedElement) :
    (e ∈ scanButtons root →
      (jsTruthy e.overrideName || jsTruthy e.ariaLabel || jsTruthy e.id ||
        jsTruthy e.textContent) = true) ∧
    (e ∈ scanAnnotated root → e.overrideName.isSome = true) := by
  constructor
  · intro hmem
    simp only [scanButtons, List.mem_filterMap] at hmem
    obtain ⟨p, _hp, hsome⟩ := hmem
    obtain ⟨el, ctx⟩ := p
    simp only [buttonEntry] at hsome
    repeat' split at hsome
    all_goals try exact Option.noConfusion hsome
    all_goals
      rw [← Option.some.inj hsome]
      cases ha : jsTruthy (readToolAttributes el).overrideName <;>
        cases hb : jsTruthy (getAttr el "aria-label") <;>
          simp_all [jsTruthy]
  · intro hmem
    simp only [scanAnnotated, List.mem_filterMap] at hmem
    obtain ⟨p, _hp, hsome⟩ := hmem
    obtain ⟨el, ctx⟩ := p
    simp only [annotatedEntry] at hsome
    repeat' split at hsome
    all_goals try exact Option.noConfusion hsome
    all_goals
      rw [← Option.some.inj hsome]
      simp only [readToolAttributes]
      refine getAttr_isSome_of_hasAttr el "data-tool-name" ?_
      simp_all

/-- Witness for the amended C6 at the concrete labeled button. -/
theorem c6_amended_signal_required_witness :
    (jsTruthy labeledButtonElement.overrideName ||
      jsTruthy labeledButtonElement.ariaLabel || jsTruthy labeledButtonElement.id ||
      jsTruthy labeledButtonElement.textContent) = true :=
  (c6_amended_signal_required labeledButtonDoc labeledButtonElement).1 (by decide)

end ThirdEye
